import Mathlib

/-!
Verification development for the `lexi` AI-video-generation backend
(`src/server/index.js`, `src/server/lib/audio.js`).

The JavaScript source is shallowly embedded as pure Lean functions.
External collaborators (the LLM completion service, the Manim renderer
subprocess, ffmpeg/ffprobe, the filesystem) are modelled as explicit
oracle parameters; IO errors of the host system are not modelled.
JavaScript strings are modelled as Lean `String` (UTF-16 code units are
identified with characters; all strings of interest are ASCII), and
JavaScript numbers as `ℚ`.
-/

/- =====================  JavaScript string primitives  ===================== -/

/-- Model of `Array.prototype.includes`-style substring search used via
`String.prototype.includes`: does `needle` occur contiguously in the
second list? -/
def listIncludes (needle : List Char) : List Char → Bool
  | [] => needle.isEmpty
  | c :: t => needle.isPrefixOf (c :: t) || listIncludes needle t

/-- `s.includes(sub)` on JavaScript strings. -/
def jsIncludes (s sub : String) : Bool :=
  listIncludes sub.data s.data

/-- `l` ends with `suffix` (model of `String.prototype.endsWith`). -/
def listEndsWith (l suffix : List Char) : Bool :=
  suffix.reverse.isPrefixOf l.reverse

/-- Model of `String.prototype.trim`: drop whitespace from both ends. -/
def trimChars (l : List Char) : List Char :=
  ((l.dropWhile Char.isWhitespace).reverse.dropWhile Char.isWhitespace).reverse

/-- `s.trim()` on JavaScript strings. -/
def jsTrim (s : String) : String :=
  String.mk (trimChars s.data)

/-- Model of `String.prototype.slice(0, n)` / `take`: first `n` characters. -/
def jsTake (n : ℕ) (s : String) : String :=
  String.mk (s.data.take n)

/-- Split a character list at every occurrence of `sep`
(model of `String.prototype.split` with a one-character separator). -/
def splitOnChar (sep : Char) : List Char → List (List Char)
  | [] => [[]]
  | c :: t =>
      match splitOnChar sep t with
      | [] => [[]]
      | h :: r => if c = sep then [] :: h :: r else (c :: h) :: r

/- =====================  StructuredOutputParser (§4.1)  ===================== -/

/-- `lastRawContent.replace(/^```(?:json)?\n?/, "")` from `feedbackLoop`:
strip one leading code-fence marker, optionally tagged `json`, optionally
followed by one newline.  The regex alternatives are tried greedily. -/
def stripLeadingFence (s : String) : String :=
  if ("```json\n".data).isPrefixOf s.data then String.mk (s.data.drop 8)
  else if ("```json".data).isPrefixOf s.data then String.mk (s.data.drop 7)
  else if ("```\n".data).isPrefixOf s.data then String.mk (s.data.drop 4)
  else if ("```".data).isPrefixOf s.data then String.mk (s.data.drop 3)
  else s

/-- `.replace(/```$/, "")`: strip one trailing code-fence marker. -/
def stripTrailingFence (s : String) : String :=
  if listEndsWith s.data ("```".data) then String.mk (s.data.take (s.data.length - 3)) else s

/-- The fixed instruction text that ends every corrective re-prompt. -/
def jsonDemand : String :=
  "Please return a strict JSON object only, matching the expected schema. No explanation."

/-- The corrective re-prompt `feedbackLoop` builds after a parse failure
(the `content` of the `{role: "user", ...}` message; `raw` plays
`lastRawContent`). -/
def correctivePrompt (raw : String) : String :=
  "Previous output could not be parsed as valid JSON:\n" ++ raw ++ "\n\n" ++ jsonDemand

/- =====================  RetryingGenerator (`feedbackLoop`)  ===================== -/

/-- The `input` argument of `feedbackLoop`: either the caller's initial
input (a scene plan, say) or a corrective `{role:"user", content}` message
synthesized after a parse failure. -/
inductive FbInput (α : Type) where
  | initial (x : α)
  | corrective (content : String)
deriving DecidableEq, Repr

/-- Result of `feedbackLoop`: a parsed JSON value, or the degraded
`{raw: lastRawContent}` object after exhausting retries. -/
inductive FbResult (J : Type) where
  | parsed (j : J)
  | raw (s : String)
deriving DecidableEq, Repr

/-- One run of the `for` loop body of `feedbackLoop`, by fuel
(`fuel = maxRetries - completed attempts`).  The LLM call
`generateFn(input)` is an oracle `gen`, indexed by the (1-based) attempt
number, returning `aiResponse.choices?.[0]?.message?.content` (`none`
models an absent field, mapped to `""` by `|| ""`).  `JSON.parse` is the
oracle `parse` (`none` = exception).  The generator itself is modelled as
total (network errors of `generateFn` are not modelled).  Besides the
source's return value, the embedding also returns the list of inputs
passed to `gen`, in call order. -/
def feedbackLoopAux {α J : Type} (gen : ℕ → FbInput α → Option String)
    (parse : String → Option J) :
    ℕ → FbInput α → String → ℕ → FbResult J × List (FbInput α)
  | _, _, lastRaw, 0 => (.raw lastRaw, [])
  | attempt, input, _, fuel + 1 =>
      let a := attempt + 1
      let content := (gen a input).getD ""
      let raw := jsTrim content
      let stripped := stripTrailingFence (stripLeadingFence raw)
      match parse stripped with
      | some j => (.parsed j, [input])
      | none =>
          let next := FbInput.corrective (correctivePrompt raw)
          let r := feedbackLoopAux gen parse a next raw fuel
          (r.1, input :: r.2)

/-- `feedbackLoop(generateFn, input, maxRetries = 3)`. -/
def feedbackLoop {α J : Type} (gen : ℕ → FbInput α → Option String)
    (parse : String → Option J) (input : FbInput α) (maxRetries : ℕ := 3) :
    FbResult J × List (FbInput α) :=
  feedbackLoopAux gen parse 0 input "" maxRetries

/-- The corrective `{role:"user"}` message the loop builds for attempt
`a`'s failed predecessor: its `content` quotes the trimmed raw text. -/
def nextCorrective {α : Type} (gen : ℕ → FbInput α → Option String)
    (a : ℕ) (inp : FbInput α) : String :=
  correctivePrompt (jsTrim ((gen a inp).getD ""))

/- =====================  CodeRepairLoop data model (§3, §4.4)  ===================== -/

/-- A caption entry of a scene plan. -/
structure Caption where
  text : String
  start_time : ℚ
  duration : ℚ
deriving DecidableEq, Repr

/-- The scene plan object threaded through `generateUntilNoManimErrors`.
The three optional fields are the repair payload spread onto the plan
after a failed render attempt. -/
structure ScenePlan where
  scene_name : String
  objects : List String
  actions : List String
  narration : String
  captions : List Caption
  previous_code : Option String := none
  manim_error : Option String := none
  manim_video_missing : Option Bool := none
deriving DecidableEq, Repr

/-- The parsed result of the code-generation call (`manimCodeJSON`).
Fields may be absent from the model's JSON. -/
structure CodeObj where
  scene_name : Option String
  manim_code : Option String
deriving DecidableEq, Repr

/-- `!manimCodeJSON || !manimCodeJSON.manim_code` guard of the loop:
`some code` when a usable (truthy) `manim_code` string is present. -/
def usableCode : Option CodeObj → Option String
  | none => none
  | some o =>
      match o.manim_code with
      | none => none
      | some s => if s = "" then none else some s

/-- The object `runManim` resolves with:
`{output, errors, videoPath, success}`.  `success` is
`code === 0 && !!videoPath` (the subprocess exit code enters only here). -/
structure RenderResult where
  output : String
  errors : String
  videoPath : Option String
  success : Bool
deriving DecidableEq, Repr

/-- The object `generateUntilNoManimErrors` returns.  `filePath` and
`videoPath` are `none` when the corresponding field is absent or `null`. -/
structure LoopResult where
  manimCode : Option CodeObj
  output : String
  errors : String
  filePath : Option String := none
  videoPath : Option String := none
  attempts : ℕ
deriving DecidableEq, Repr

/-- Observable side effects of the repair loop, in order of occurrence:
a generation call (`feedbackLoop(generateManimCode, scenePlan)`) with the
plan it received, a `writeFile` of generated source, and a `runManim`
invocation. -/
inductive LoopEvent where
  | genCall (plan : ScenePlan)
  | wroteFile (path : String) (contents : String)
  | renderCall (filePath sceneName : String)
deriving DecidableEq, Repr

/-- The plans handed to the generation calls, extracted from an event list. -/
def plansOf (evs : List LoopEvent) : List ScenePlan :=
  evs.filterMap fun e =>
    match e with
    | .genCall p => some p
    | _ => none

/-- `!manimResult.errors || manimResult.errors.trim() === ""`. -/
def jsBlank (s : String) : Bool :=
  s = "" || jsTrim s = ""

/-- `!!videoPath` for a nullable string. -/
def jsTruthy : Option String → Bool
  | none => false
  | some s => s ≠ ""

/-- `videoPath || null` for a nullable string. -/
def jsOrNull : Option String → Option String
  | none => none
  | some s => if s = "" then none else some s

/-- Initial `manimResult = { output: "", errors: "", videoPath: null }`
(`success` is a placeholder; the source object has no such field and the
loop never reads it before a render). -/
def initialRender : RenderResult :=
  { output := "", errors := "", videoPath := none, success := false }

/-- Models `join(__dirname, "scripts")`. -/
def scriptsDir : String := "scripts"

/-- `join(scriptsPath, scenePlan.scene_name + ".py")`: where the loop
persists generated code before rendering. -/
def sceneFile (sp : String) (p : ScenePlan) : String :=
  sp ++ "/" ++ p.scene_name ++ ".py"

/-- The repair payload the loop spreads onto the scene plan after a
failed attempt whose generated code was `code` and whose render result
was `r`: `{...scenePlan, previous_code, manim_error (first 2000 chars),
manim_video_missing}`. -/
def failedAttemptPlan (p : ScenePlan) (code : String) (r : RenderResult) : ScenePlan :=
  { p with
    previous_code := some code,
    manim_error := some (jsTake 2000 r.errors),
    manim_video_missing := some (!jsTruthy r.videoPath) }

/-- The `while (attempt < maxAttempts)` body of
`generateUntilNoManimErrors`, by fuel (`fuel = maxAttempts - attempt`).
`gen` is the oracle for `feedbackLoop(generateManimCode, scenePlan)`
(indexed by the 1-based attempt number; `none` models a `{raw}` fallback
or any object without the fields), and `render` is the oracle for
`runManim(filePath, sceneName)` at each attempt.  Besides the source's
return value the embedding returns the list of observable events. -/
def genLoopAux (gen : ℕ → ScenePlan → Option CodeObj)
    (render : ℕ → String → String → RenderResult)
    (sp : String) (maxAttempts : ℕ) :
    ℕ → ScenePlan → Option CodeObj → RenderResult → ℕ → LoopResult × List LoopEvent
  | _, _, lastCode, lastRender, 0 =>
      ({ manimCode := lastCode, output := lastRender.output,
         errors := lastRender.errors, filePath := none,
         videoPath := jsOrNull lastRender.videoPath, attempts := maxAttempts }, [])
  | attempt, plan, _, _, fuel + 1 =>
      let a := attempt + 1
      let codeJSON := gen a plan
      match usableCode codeJSON with
      | none =>
          ({ manimCode := codeJSON, output := "", errors := "No manim_code",
             filePath := none, videoPath := none, attempts := a }, [.genCall plan])
      | some code =>
          let fp := sceneFile sp plan
          let r := render a fp plan.scene_name
          if jsBlank r.errors && jsTruthy r.videoPath then
            ({ manimCode := codeJSON, output := r.output, errors := r.errors,
               filePath := some fp, videoPath := r.videoPath, attempts := a },
             [.genCall plan, .wroteFile fp code, .renderCall fp plan.scene_name])
          else
            let plan' := failedAttemptPlan plan code r
            let rec' := genLoopAux gen render sp maxAttempts a plan' codeJSON r fuel
            (rec'.1,
             .genCall plan :: .wroteFile fp code :: .renderCall fp plan.scene_name :: rec'.2)

/-- `generateUntilNoManimErrors(scenePlan, maxAttempts = 3)`. -/
def generateUntilNoManimErrors (gen : ℕ → ScenePlan → Option CodeObj)
    (render : ℕ → String → String → RenderResult)
    (plan : ScenePlan) (maxAttempts : ℕ := 3) : LoopResult × List LoopEvent :=
  genLoopAux gen render scriptsDir maxAttempts 0 plan none initialRender maxAttempts

/- =====================  RenderInvoker (`runManim`, `findLatestMp4`)  ===================== -/

/-- A file on the scratch filesystem: its path components (relative to the
model's root) and its modification time (`stat(...).mtimeMs`). -/
structure MFile where
  parts : List String
  mtime : ℚ
deriving DecidableEq, Repr

/-- The filesystem as the list of its files in depth-first walk order
(the order `readdir`-based walks visit them).  Directories exist exactly
where files live below them; empty directories are not modelled (they are
indistinguishable from absent ones for every operation below). -/
abbrev FS := List MFile

/-- `join(...)`-produced path string of a file. -/
def pathStr (f : MFile) : String := String.intercalate "/" f.parts

/-- Path string to components. -/
def splitPath (p : String) : List String :=
  (splitOnChar '/' p.data).map String.mk

/-- `f` lies strictly below the directory with components `dirParts`. -/
def isUnderDir (dirParts : List String) (f : MFile) : Bool :=
  dirParts.isPrefixOf f.parts && !(f.parts == dirParts)

/-- `fs.existsSync(p)`: `p` is a file or an ancestor directory of one. -/
def existsPath (fs : FS) (p : String) : Bool :=
  fs.any fun f => (splitPath p).isPrefixOf f.parts

/-- `p` names a file of the filesystem. -/
def isFilePath (fs : FS) (p : String) : Bool :=
  fs.any fun f => f.parts == splitPath p

/-- `stat(p)` succeeds with `isDirectory()` true. -/
def isDirPath (fs : FS) (p : String) : Bool :=
  (fs.any fun f => isUnderDir (splitPath p) f) && !(isFilePath fs p)

/-- `ent.name.toLowerCase().endsWith(".mp4")` on the file's name. -/
def isMp4Lower (f : MFile) : Bool :=
  match f.parts.getLast? with
  | some n => listEndsWith (n.data.map Char.toLower) ".mp4".data
  | none => false

/-- `gatherMp4(dir)` of `findLatestMp4`: every `.mp4` file (name compared
case-insensitively) in the recursive walk of `dir`, in walk order. -/
def gatherMp4 (fs : FS) (dirPath : String) : List MFile :=
  fs.filter fun f => isUnderDir (splitPath dirPath) f && isMp4Lower f

/-- The `possibleQualityFolders` constant. -/
def qualityFolders : List String := ["480p15", "720p30", "1080p60", "2160p60"]

/-- The `candidates` list `findLatestMp4` accumulates: the known quality
folders of the scene, then the whole scene folder, and — only when both
yield nothing — the whole media root. -/
def findCandidates (fs : FS) (mediaRoot sceneName : String) : List MFile :=
  let qualityCands := qualityFolders.flatMap fun q =>
    let qp := mediaRoot ++ "/" ++ sceneName ++ "/" ++ q
    if existsPath fs qp then gatherMp4 fs qp else []
  let sceneFolder := mediaRoot ++ "/" ++ sceneName
  let sceneCands := if existsPath fs sceneFolder then gatherMp4 fs sceneFolder else []
  let cands := qualityCands ++ sceneCands
  if cands.isEmpty then gatherMp4 fs mediaRoot else cands

/-- The final selection loop of `findLatestMp4`: `newest = null`,
`newestMtime = 0`, keep the first candidate whose mtime strictly exceeds
every earlier one. -/
def pickNewestInit0 (l : List MFile) : Option String :=
  (l.foldl
    (fun acc f => if f.mtime > acc.2 then (some (pathStr f), f.mtime) else acc)
    ((none : Option String), (0 : ℚ))).1

/-- `findLatestMp4(mediaRoot, sceneName)`. -/
def findLatestMp4 (fs : FS) (mediaRoot sceneName : String) : Option String :=
  if !isDirPath fs mediaRoot then none
  else
    let cands := findCandidates fs mediaRoot sceneName
    if cands.isEmpty then none else pickNewestInit0 cands

/-- The directory-name exclusion of strategy 3's `searchDir`: no directory
component on the way down may contain `node_modules` or `myvenv`. -/
def tier3Allowed (spParts : List String) (f : MFile) : Bool :=
  (f.parts.drop spParts.length).dropLast.all fun d =>
    !(listIncludes "node_modules".data d.data) && !(listIncludes "myvenv".data d.data)

/-- Strategy 3 of `runManim`: every file named `*.mp4` (case-sensitive
here, unlike `gatherMp4`) in the recursive walk of the scripts directory,
skipping excluded directories. -/
def tier3Search (fs : FS) (scriptsPath : String) : List MFile :=
  fs.filter fun f =>
    isUnderDir (splitPath scriptsPath) f &&
    tier3Allowed (splitPath scriptsPath) f &&
    (match f.parts.getLast? with
     | some n => listEndsWith n.data ".mp4".data
     | none => false)

/-- `allMp4s.sort((a, b) => b.mtime - a.mtime); allMp4s[0]`: the first
file (in walk order) attaining the maximal mtime. -/
def firstMax : List MFile → Option MFile
  | [] => none
  | f :: rest =>
      match firstMax rest with
      | none => some f
      | some g => if g.mtime > f.mtime then some g else some f

/-- Is this character one of the quote characters of the
`/['"]([^'"]+\.mp4)['"]/` pattern? -/
def isQuote (c : Char) : Bool := c = '\'' || c = '"'

/-- Characters before the next quote, `none` when no quote follows. -/
def takeToQuote : List Char → Option (List Char)
  | [] => none
  | c :: rest => if isQuote c then some [] else (takeToQuote rest).map (c :: ·)

/-- `line.match(/['"]([^'"]+\.mp4)['"]/)`: the first quoted span of
non-quote characters that ends in `.mp4` (backtracking makes the closing
quote the next quote after the opening one). -/
def quotedMp4Match : List Char → Option String
  | [] => none
  | c :: rest =>
      if isQuote c then
        match takeToQuote rest with
        | some content =>
            if listEndsWith content ".mp4".data ∧ 5 ≤ content.length then
              some (String.mk content)
            else quotedMp4Match rest
        | none => none
      else quotedMp4Match rest

/-- The stdout filter of strategy 1:
`line.includes(".mp4") && (line.includes("File ready") || line.includes("ready at"))`. -/
def readyLine (line : List Char) : Bool :=
  listIncludes ".mp4".data line &&
    (listIncludes "File ready".data line || listIncludes "ready at".data line)

/-- The `for (const line of outputLines)` scan of `runManim`: the capture
from the last qualifying line that has a quoted `.mp4` match. -/
def detectFromOutput (output : String) : Option String :=
  (splitOnChar '\n' output.data).foldl
    (fun acc line =>
      if readyLine line then
        match quotedMp4Match line with
        | some p => some p
        | none => acc
      else acc)
    none

/-- Strategy 1's result: the detected path, accepted only when it exists
on disk (`detectedVideoPath && fs.existsSync(detectedVideoPath)`). -/
def tier1Result (fs : FS) (output : String) : Option String :=
  match detectFromOutput output with
  | some p => if existsPath fs p then some p else none
  | none => none

/-- The three-tier video search of `runManim` (strategy 1: stdout
detection; strategy 2: `findLatestMp4` on `media/videos`; strategy 3:
whole-scripts-directory walk), each tier tried only while `videoPath`
is still null. -/
def locateVideo (fs : FS) (scriptsPath sceneName output : String) : Option String :=
  match tier1Result fs output with
  | some p => some p
  | none =>
      match findLatestMp4 fs (scriptsPath ++ "/media/videos") sceneName with
      | some p => some p
      | none => (firstMax (tier3Search fs scriptsPath)).map pathStr

/-- The value `runManim` resolves with once the subprocess closed with
`code`, having accumulated `output` and `errors`, with the filesystem in
state `fs`.  (`_filePath` is the generated-source path: it is passed to
the subprocess but plays no role in result construction.) -/
def runManim (fs : FS) (scriptsPath _filePath sceneName : String)
    (exitCode : Int) (output errors : String) : RenderResult :=
  let videoPath := locateVideo fs scriptsPath sceneName output
  { output := output, errors := errors, videoPath := videoPath,
    success := (exitCode == 0) && videoPath.isSome }

/- =====================  Duration probe (`getMediaDuration`)  ===================== -/

/-- Outcome of the `ffprobe` subprocess run by `getMediaDuration`:
either the spawn failed (the `error` event), or the process closed with
an exit code and `parseFloat(out.trim())` of its accumulated stdout
(`none` models `NaN`, i.e. non-numeric output). -/
inductive ProbeOutcome where
  | spawnError
  | closed (code : Int) (parsed : Option ℚ)
deriving DecidableEq, Repr

/-- `getMediaDuration(filePath)`: the value the promise resolves with.
Every handler of the source resolves (never rejects), so the embedding is
a total function into `ℚ`. -/
def getMediaDuration : ProbeOutcome → ℚ
  | .spawnError => 0
  | .closed code parsed =>
      if code = 0 then
        match parsed with
        | some v => v
        | none => 0
      else 0

/- =====================  AudioDurationReconciler (`padOrTrimAudioToMatch`)  ===================== -/

/-- `Math.max` on two rationals (kernel-computable form of `max`). -/
def qmax (a b : ℚ) : ℚ := if a ≤ b then b else a

/-- `Math.min` on two rationals (kernel-computable form of `min`). -/
def qmin (a b : ℚ) : ℚ := if a ≤ b then a else b

/-- `Number.prototype.toFixed(2)` on a non-negative rational: round to
hundredths (ties away from zero, i.e. upwards here; written with
`Rat.divInt`/`mkRat` so the kernel can evaluate it). -/
def round2 (q : ℚ) : ℚ := Rat.divInt (Rat.floor (q * 100 + mkRat 1 2)) 100

/-- `x || d` on numbers: `d` when `x` is falsy (`0`), else `x`. -/
def jsOrQ (x d : ℚ) : ℚ := if x = 0 then d else x

/-- The duration of the file `createSilentAudio(durationSec, dest)`
produces: `Math.max(0.5, Number(durationSec) || 1).toFixed(2)` passed to
`ffmpeg -t`. -/
def createSilentAudioDur (durationSec : ℚ) : ℚ :=
  round2 (qmax (mkRat 1 2) (jsOrQ durationSec 1))

/-- What `padOrTrimAudioToMatch` returns: either the original audio path
untouched, or a freshly created file (in the scratch directory, under a
new timestamped name — never overwriting an input).  The constructors
record the ffmpeg invocation that produces the new file: a pure silent
track of the given duration; the source trimmed by `-t` to the given
duration; or the source followed (concat filter) by silence of the given
duration. -/
inductive AudioPrep where
  | original (path : String)
  | silence (duration : ℚ)
  | trimmed (src : String) (toDuration : ℚ)
  | padded (src : String) (silenceDur : ℚ)
deriving DecidableEq, Repr

/-- Duration of the prepared audio, given the duration probe `dur` for
existing files.  (`trimmed`: `-t` caps the output at the smaller of input
length and the requested time; `padded`: concatenation adds durations.) -/
def prepDuration (dur : String → ℚ) : AudioPrep → ℚ
  | .original p => dur p
  | .silence d => d
  | .trimmed src d => qmin (dur src) d
  | .padded src sd => dur src + sd

/-- `padOrTrimAudioToMatch(videoPath, audioPath, outputDir)`.
`dur` is the oracle for `getMediaDuration` on concrete paths,
`exists?` for `fs.existsSync`.  The tolerance is `eps = 0.05`. -/
def padOrTrimAudioToMatch (dur : String → ℚ) (exists? : String → Bool)
    (videoPath : String) : Option String → AudioPrep
  | none => .silence (createSilentAudioDur (jsOrQ (dur videoPath) 1))
  | some a =>
      if a = "" || !exists? a then
        .silence (createSilentAudioDur (jsOrQ (dur videoPath) 1))
      else
        let videoDur := dur videoPath
        let audioDur := dur a
        let eps : ℚ := mkRat 5 100
        if audioDur > videoDur + eps then
          .trimmed a (round2 videoDur)
        else if audioDur < videoDur - eps then
          let diff := qmax (mkRat 1 2) (videoDur - audioDur)
          .padded a (createSilentAudioDur diff)
        else
          .original a

/- =====================  MediaMuxer (`mergeVideoAndAudio`)  ===================== -/

/-- How far `mergeVideoAndAudio` gets before its first subprocess:
either it throws `Video file not found` (no subprocess of any kind is
spawned), or it reaches the transcoder invocation with the audio prepared
by `ensureAudioForMerge` (= `padOrTrimAudioToMatch`). -/
inductive MergeOutcome where
  | missingVideoError (path : Option String)
  | spawned (audioUsed : AudioPrep)
deriving DecidableEq, Repr

/-- Does the outcome represent the immediate missing-input failure? -/
def isMissingInputFailure : MergeOutcome → Bool
  | .missingVideoError _ => true
  | .spawned _ => false

/-- The input-validation and audio-preparation prefix of
`mergeVideoAndAudio(videoPath, audioPath, options)`:
`if (!videoPath || !fs.existsSync(videoPath)) throw ...` and then
`ensureAudioForMerge(videoPath, audioPath, outputDir)`. -/
def mergeVideoAndAudio (dur : String → ℚ) (exists? : String → Bool)
    (videoPath audioPath : Option String) : MergeOutcome :=
  match videoPath with
  | none => .missingVideoError none
  | some v =>
      if v = "" || !exists? v then .missingVideoError (some v)
      else .spawned (padOrTrimAudioToMatch dur exists? v audioPath)

/- =====================  Concrete stubs for witnesses and counterexamples  ===================== -/

/-- A generator stub that always answers the same non-JSON text, with the
attempt number appended. -/
def genStubFb : ℕ → FbInput ℕ → Option String :=
  fun a _ => some ("not json " ++ String.mk (List.replicate a 'x'))

/-- A generator stub answering text with leading whitespace. -/
def genStubWs : ℕ → FbInput ℕ → Option String :=
  fun _ _ => some "  bad json"

/-- A `JSON.parse` stub that always throws. -/
def parseNone : String → Option Unit := fun _ => none

/-- A `JSON.parse` stub that always succeeds. -/
def parseUnit : String → Option Unit := fun _ => some ()

/-- A scene plan with no repair payload. -/
def basePlan : ScenePlan :=
  { scene_name := "Scene", objects := [], actions := [], narration := "", captions := [] }

/-- A code-generation stub that always produces usable code
(`"codeA"` on attempt 1, `"codeB"` afterwards). -/
def genStubOk : ℕ → ScenePlan → Option CodeObj :=
  fun a _ => some ⟨some "Scene", some (if a = 1 then "codeA" else "codeB")⟩

/-- A code-generation stub whose parsed object lacks `manim_code`. -/
def genStubNoCode : ℕ → ScenePlan → Option CodeObj :=
  fun _ _ => some ⟨some "Scene", none⟩

/-- A render stub failing on attempt 1 (non-empty stderr, no video) and
succeeding on attempt 2. -/
def renderStubFailThenOk : ℕ → String → String → RenderResult :=
  fun a _ _ =>
    if a = 1 then ⟨"out1", "boom", none, false⟩
    else ⟨"out2", "", some "vid.mp4", true⟩

/-- The same render stub with the exit-code-derived `success` flags
flipped (outputs, stderr, and video paths unchanged). -/
def renderStubFlipped : ℕ → String → String → RenderResult :=
  fun a _ _ =>
    if a = 1 then ⟨"out1", "boom", none, true⟩
    else ⟨"out2", "", some "vid.mp4", false⟩

/-- A render stub that never succeeds and never locates a video; its
streams identify the attempt number. -/
def renderStubNever : ℕ → String → String → RenderResult :=
  fun a _ _ =>
    ⟨"out" ++ String.mk (List.replicate a 'o'),
     "err" ++ String.mk (List.replicate a 'e'), none, false⟩

/-- A concrete scratch filesystem: one render artifact in the structured
media tree (old mtime), a newer stray `.mp4` elsewhere, and the file the
renderer's stdout names. -/
def fsStub : FS :=
  [ ⟨["scripts", "media", "videos", "Scene", "480p15", "Scene.mp4"], 100⟩,
    ⟨["scripts", "other", "new.mp4"], 999⟩,
    ⟨["scripts", "x.mp4"], 500⟩ ]

/-- Renderer stdout carrying a "File ready" line naming an existing
`.mp4`. -/
def outStub : String := "INFO\nFile ready at 'scripts/x.mp4'\ndone"

/-- A duration-probe stub: `video.mp4` is unprobeable (0), `video2.mp4`
lasts 10.456s, `audio.mp3` lasts 12s, `v.mp4` lasts 10s. -/
def audioDurStub : String → ℚ := fun p =>
  if p = "video.mp4" then 0
  else if p = "video2.mp4" then mkRat 10456 1000
  else if p = "audio.mp3" then 12
  else if p = "v.mp4" then 10
  else 0

/-- An `fs.existsSync` stub for the audio/merge scenarios. -/
def audioExistsStub : String → Bool := fun p =>
  p = "audio.mp3" || p = "video2.mp4" || p = "v.mp4"

/- =====================  Shared lemmas  ===================== -/

theorem string_data_append (s t : String) : (s ++ t).data = s.data ++ t.data :=
  String.data_append s t

theorem correctivePrompt_data (raw : String) :
    (correctivePrompt raw).data =
      "Previous output could not be parsed as valid JSON:\n".data ++
        (raw.data ++ ("\n\n".data ++ jsonDemand.data)) := by
  simp [correctivePrompt, string_data_append]

theorem correctivePrompt_quotes_raw (raw : String) :
    raw.data <:+: (correctivePrompt raw).data := by
  rw [correctivePrompt_data]
  exact ⟨"Previous output could not be parsed as valid JSON:\n".data,
    "\n\n".data ++ jsonDemand.data, by simp⟩

theorem correctivePrompt_demands_json (raw : String) :
    jsonDemand.data <:+: (correctivePrompt raw).data := by
  rw [correctivePrompt_data]
  exact ⟨"Previous output could not be parsed as valid JSON:\n".data ++ raw.data ++ "\n\n".data,
    [], by simp⟩

theorem fbAux_trace_len {α J : Type} (gen : ℕ → FbInput α → Option String)
    (parse : String → Option J) :
    ∀ (fuel attempt : ℕ) (input : FbInput α) (lastRaw : String),
      ((feedbackLoopAux gen parse attempt input lastRaw fuel).2).length ≤ fuel := by
  intro fuel
  induction fuel with
  | zero => intro attempt input lastRaw; simp [feedbackLoopAux]
  | succ n ih =>
      intro attempt input lastRaw
      simp only [feedbackLoopAux]
      cases h : parse (stripTrailingFence (stripLeadingFence
          (jsTrim ((gen (attempt + 1) input).getD "")))) with
      | some j => simp
      | none => simpa using ih (attempt + 1) _ _

theorem fbAux_trace_head {α J : Type} (gen : ℕ → FbInput α → Option String)
    (parse : String → Option J) (fuel attempt : ℕ) (input : FbInput α) (lastRaw : String)
    (h : 0 < fuel) :
    ((feedbackLoopAux gen parse attempt input lastRaw fuel).2).head? = some input := by
  cases fuel with
  | zero => omega
  | succ n =>
      simp only [feedbackLoopAux]
      cases parse (stripTrailingFence (stripLeadingFence
          (jsTrim ((gen (attempt + 1) input).getD "")))) <;> simp

theorem fbAux_consecutive {α J : Type} (gen : ℕ → FbInput α → Option String)
    (parse : String → Option J) :
    ∀ (fuel attempt : ℕ) (input : FbInput α) (lastRaw : String) (i : ℕ)
      (h1 : i < ((feedbackLoopAux gen parse attempt input lastRaw fuel).2).length)
      (h2 : i + 1 < ((feedbackLoopAux gen parse attempt input lastRaw fuel).2).length),
      parse (stripTrailingFence (stripLeadingFence (jsTrim ((gen (attempt + i + 1)
          (((feedbackLoopAux gen parse attempt input lastRaw fuel).2).get ⟨i, h1⟩)).getD "")))) =
        none ∧
      ((feedbackLoopAux gen parse attempt input lastRaw fuel).2).get ⟨i + 1, h2⟩ =
        .corrective (nextCorrective gen (attempt + i + 1)
          (((feedbackLoopAux gen parse attempt input lastRaw fuel).2).get ⟨i, h1⟩)) := by
  intro fuel
  induction fuel with
  | zero => intro attempt input lastRaw i h1 h2; simp [feedbackLoopAux] at h1
  | succ n ih =>
      intro attempt input lastRaw i h1 h2
      revert h1 h2
      simp only [feedbackLoopAux]
      cases hp : parse (stripTrailingFence (stripLeadingFence
          (jsTrim ((gen (attempt + 1) input).getD "")))) with
      | some j => intro h1 h2; simp at h2
      | none =>
          simp only []
          intro h1 h2
          cases i with
          | zero =>
              simp only [List.get_cons_succ, List.length_cons, List.get_mk_zero] at h2 ⊢
              have hlen : 0 <
                  ((feedbackLoopAux gen parse (attempt + 1)
                    (.corrective (correctivePrompt (jsTrim ((gen (attempt + 1) input).getD ""))))
                    (jsTrim ((gen (attempt + 1) input).getD "")) n).2).length := by
                omega
              have hn : 0 < n :=
                lt_of_lt_of_le hlen (fbAux_trace_len gen parse n (attempt + 1) _ _)
              have hhead := fbAux_trace_head gen parse n (attempt + 1)
                (.corrective (correctivePrompt (jsTrim ((gen (attempt + 1) input).getD ""))))
                (jsTrim ((gen (attempt + 1) input).getD "")) hn
              refine ⟨hp, ?_⟩
              have hne : (feedbackLoopAux gen parse (attempt + 1)
                  (.corrective (correctivePrompt (jsTrim ((gen (attempt + 1) input).getD ""))))
                  (jsTrim ((gen (attempt + 1) input).getD "")) n).2 ≠ [] := by
                intro hcon
                rw [hcon] at hlen
                simp at hlen
              have hh := List.head?_eq_head hne
              rw [hhead] at hh
              simp only [List.head_cons, nextCorrective, Nat.add_zero]
              exact (Option.some.injEq _ _ ▸ hh).symm
          | succ k =>
              simp only [List.length_cons] at h1 h2
              have h1' : k < ((feedbackLoopAux gen parse (attempt + 1)
                  (.corrective (correctivePrompt (jsTrim ((gen (attempt + 1) input).getD ""))))
                  (jsTrim ((gen (attempt + 1) input).getD "")) n).2).length := by omega
              have h2' : k + 1 < ((feedbackLoopAux gen parse (attempt + 1)
                  (.corrective (correctivePrompt (jsTrim ((gen (attempt + 1) input).getD ""))))
                  (jsTrim ((gen (attempt + 1) input).getD "")) n).2).length := by omega
              have := ih (attempt + 1)
                (.corrective (correctivePrompt (jsTrim ((gen (attempt + 1) input).getD ""))))
                (jsTrim ((gen (attempt + 1) input).getD "")) k h1' h2'
              have harith : attempt + 1 + k + 1 = attempt + (k + 1) + 1 := by omega
              rw [harith] at this
              simpa [List.get_cons_succ] using this

theorem fbAux_all_fail {α J : Type} (gen : ℕ → FbInput α → Option String)
    (parse : String → Option J) (hp : ∀ s, parse s = none) :
    ∀ (fuel attempt : ℕ) (input : FbInput α) (lastRaw : String),
      ((feedbackLoopAux gen parse attempt input lastRaw fuel).2).length = fuel ∧
      (∀ l, ((feedbackLoopAux gen parse attempt input lastRaw fuel).2).getLast? = some l →
        (feedbackLoopAux gen parse attempt input lastRaw fuel).1 =
          .raw (jsTrim ((gen (attempt + fuel) l).getD ""))) ∧
      (fuel = 0 → (feedbackLoopAux gen parse attempt input lastRaw fuel).1 = .raw lastRaw) := by
  intro fuel
  induction fuel with
  | zero =>
      intro attempt input lastRaw
      refine ⟨rfl, ?_, fun _ => rfl⟩
      intro l hl
      simp [feedbackLoopAux] at hl
  | succ n ih =>
      intro attempt input lastRaw
      simp only [feedbackLoopAux, hp]
      obtain ⟨ihlen, ihlast, ihzero⟩ := ih (attempt + 1)
        (.corrective (correctivePrompt (jsTrim ((gen (attempt + 1) input).getD ""))))
        (jsTrim ((gen (attempt + 1) input).getD ""))
      refine ⟨by simpa using ihlen, ?_, by omega⟩
      intro l hl
      rcases htr : (feedbackLoopAux gen parse (attempt + 1)
          (.corrective (correctivePrompt (jsTrim ((gen (attempt + 1) input).getD ""))))
          (jsTrim ((gen (attempt + 1) input).getD "")) n).2 with _ | ⟨b, l2⟩
      · have hn0 : n = 0 := by rw [htr] at ihlen; simpa using ihlen.symm
        rw [htr] at hl
        simp at hl
        subst hl
        have := ihzero hn0
        rw [this, hn0]
      · rw [htr] at hl
        rw [List.getLast?_cons_cons] at hl
        have := ihlast l (by rw [htr]; exact hl)
        rw [this]
        have harith : attempt + 1 + n = attempt + (n + 1) := by omega
        rw [harith]

/-- **C7** (amended): for every model response whose content fails strict
JSON parsing after fence-stripping, the corrective re-prompt built for
the next attempt quotes the **trimmed** raw response text verbatim
(`content.trim()`, the value of `lastRawContent`), together with the
fixed strict-JSON-only demand; the exact untrimmed original is quoted
only when it carries no leading/trailing whitespace. -/
theorem feedbackLoop_reprompt_quotes_trimmed_raw {α J : Type}
    (gen : ℕ → FbInput α → Option String) (parse : String → Option J)
    (input : FbInput α) (n i : ℕ)
    (h1 : i < ((feedbackLoop gen parse input n).2).length)
    (h2 : i + 1 < ((feedbackLoop gen parse input n).2).length) :
    parse (stripTrailingFence (stripLeadingFence (jsTrim ((gen (i + 1)
        (((feedbackLoop gen parse input n).2).get ⟨i, h1⟩)).getD "")))) = none ∧
    ((feedbackLoop gen parse input n).2).get ⟨i + 1, h2⟩ =
      .corrective (nextCorrective gen (i + 1)
        (((feedbackLoop gen parse input n).2).get ⟨i, h1⟩)) ∧
    (jsTrim ((gen (i + 1) (((feedbackLoop gen parse input n).2).get ⟨i, h1⟩)).getD "")).data <:+:
      (nextCorrective gen (i + 1) (((feedbackLoop gen parse input n).2).get ⟨i, h1⟩)).data ∧
    jsonDemand.data <:+:
      (nextCorrective gen (i + 1) (((feedbackLoop gen parse input n).2).get ⟨i, h1⟩)).data := by
  have h := fbAux_consecutive gen parse n 0 input "" i h1 h2
  rw [Nat.zero_add] at h
  exact ⟨h.1, h.2, correctivePrompt_quotes_raw _, correctivePrompt_demands_json _⟩

set_option maxRecDepth 8000 in
/-- Witness for C7's amended theorem at a concrete always-failing run. -/
theorem feedbackLoop_reprompt_witness :
    ((feedbackLoop genStubWs parseNone (FbInput.initial 0) 2).2).get ⟨1, by decide⟩ =
      FbInput.corrective (nextCorrective genStubWs 1 (FbInput.initial 0)) ∧
    (jsTrim ((genStubWs 1 (FbInput.initial 0)).getD "")).data <:+:
      (nextCorrective genStubWs 1 (FbInput.initial 0)).data := by
  have h := feedbackLoop_reprompt_quotes_trimmed_raw genStubWs parseNone
    (FbInput.initial 0) 2 0 (by decide) (by decide)
  obtain ⟨-, hb, hc, -⟩ := h
  have h0 : ((feedbackLoop genStubWs parseNone (FbInput.initial 0) 2).2).get
      ⟨0, by decide⟩ = FbInput.initial 0 := by decide
  rw [h0] at hb hc
  exact ⟨hb, hc⟩

set_option maxRecDepth 8000 in
/-- Counterexample to C7 as stated: the response content `"  bad json"`
(leading whitespace) fails parsing, the re-prompt built for attempt 2
quotes only the trimmed text `"bad json"`, and the exact original
content does not occur verbatim anywhere in that re-prompt. -/
theorem feedbackLoop_reprompt_counterexample :
    (genStubWs 1 (FbInput.initial 0)).getD "" = "  bad json" ∧
    parseNone (stripTrailingFence (stripLeadingFence (jsTrim "  bad json"))) = none ∧
    ((feedbackLoop genStubWs parseNone (FbInput.initial 0) 2).2).get ⟨1, by decide⟩ =
      FbInput.corrective (correctivePrompt "bad json") ∧
    ¬ ("  bad json".data <:+: (correctivePrompt "bad json").data) :=
  ⟨rfl, rfl, by decide, by decide⟩

/-- **C4**: `feedbackLoop` calls the generator at most `maxRetries`
times; a successful parse at any attempt returns the parsed object at
once with no further generator calls; and when every parse fails it
makes exactly `maxRetries` calls and returns `{raw: ...}` holding the
last attempt's (trimmed) text — it never throws (the embedding is a
total function). -/
theorem feedbackLoop_retry_contract {α J : Type}
    (gen : ℕ → FbInput α → Option String) (parse : String → Option J)
    (input : FbInput α) (n : ℕ) :
    ((feedbackLoop gen parse input n).2).length ≤ n ∧
    (∀ (fuel attempt : ℕ) (inp : FbInput α) (lastRaw : String) (j : J),
      parse (stripTrailingFence (stripLeadingFence
          (jsTrim ((gen (attempt + 1) inp).getD "")))) = some j →
      feedbackLoopAux gen parse attempt inp lastRaw (fuel + 1) = (.parsed j, [inp])) ∧
    ((∀ s, parse s = none) →
      ((feedbackLoop gen parse input n).2).length = n ∧
      ∀ l, ((feedbackLoop gen parse input n).2).getLast? = some l →
        (feedbackLoop gen parse input n).1 = .raw (jsTrim ((gen n l).getD ""))) := by
  refine ⟨fbAux_trace_len gen parse n 0 input "", ?_, ?_⟩
  · intro fuel attempt inp lastRaw j hj
    simp [feedbackLoopAux, hj]
  · intro hp
    obtain ⟨hlen, hlast, -⟩ := fbAux_all_fail gen parse hp n 0 input ""
    exact ⟨hlen, fun l hl => by simpa using hlast l hl⟩

/-- Witness for C4 at concrete stubs: an always-failing parser makes
exactly 3 calls and yields `{raw}` of the third response; an
always-succeeding parser returns after one call. -/
theorem feedbackLoop_retry_witness :
    ((feedbackLoop genStubFb parseNone (FbInput.initial 0) 3).2).length = 3 ∧
    (feedbackLoop genStubFb parseNone (FbInput.initial 0) 3).1 = .raw "not json xxx" ∧
    feedbackLoop genStubFb parseUnit (FbInput.initial 0) 3 = (.parsed (), [FbInput.initial 0]) := by
  obtain ⟨hlen, hlast⟩ :=
    (feedbackLoop_retry_contract genStubFb parseNone (FbInput.initial 0) 3).2.2 (fun _ => rfl)
  refine ⟨hlen, ?_, ?_⟩
  · have h := hlast (FbInput.corrective (correctivePrompt "not json xx")) (by decide)
    rw [h]
    decide
  · exact (feedbackLoop_retry_contract genStubFb parseUnit (FbInput.initial 0) 3).2.1 2 0
      (FbInput.initial 0) "" () rfl

/- =====================  CodeRepairLoop lemmas  ===================== -/

theorem plansOf_nil : plansOf [] = [] := rfl

theorem plansOf_genCall (p : ScenePlan) (evs : List LoopEvent) :
    plansOf (.genCall p :: evs) = p :: plansOf evs := rfl

theorem plansOf_wroteFile (f c : String) (evs : List LoopEvent) :
    plansOf (.wroteFile f c :: evs) = plansOf evs := rfl

theorem plansOf_renderCall (f s : String) (evs : List LoopEvent) :
    plansOf (.renderCall f s :: evs) = plansOf evs := rfl

theorem genAux_plans_len (gen : ℕ → ScenePlan → Option CodeObj)
    (render : ℕ → String → String → RenderResult) (sp : String) (ma : ℕ) :
    ∀ (fuel attempt : ℕ) (plan : ScenePlan) (lastC : Option CodeObj) (lastR : RenderResult),
      (plansOf (genLoopAux gen render sp ma attempt plan lastC lastR fuel).2).length ≤ fuel := by
  intro fuel
  induction fuel with
  | zero => intro attempt plan lastC lastR; simp [genLoopAux, plansOf]
  | succ n ih =>
      intro attempt plan lastC lastR
      simp only [genLoopAux]
      cases huc : usableCode (gen (attempt + 1) plan) with
      | none => simp [plansOf]
      | some code =>
          cases hcond : (jsBlank (render (attempt + 1) (sceneFile sp plan)
              plan.scene_name).errors &&
              jsTruthy (render (attempt + 1) (sceneFile sp plan) plan.scene_name).videoPath) with
          | true => simp [hcond, plansOf]
          | false =>
              simp only [hcond, Bool.false_eq_true, if_false, plansOf_genCall,
                plansOf_wroteFile, plansOf_renderCall, List.length_cons]
              exact Nat.succ_le_succ (ih (attempt + 1) _ _ _)

theorem genAux_plans_head (gen : ℕ → ScenePlan → Option CodeObj)
    (render : ℕ → String → String → RenderResult) (sp : String) (ma : ℕ)
    (fuel attempt : ℕ) (plan : ScenePlan) (lastC : Option CodeObj) (lastR : RenderResult)
    (h : 0 < fuel) :
    (plansOf (genLoopAux gen render sp ma attempt plan lastC lastR fuel).2).head? =
      some plan := by
  cases fuel with
  | zero => omega
  | succ n =>
      simp only [genLoopAux]
      cases huc : usableCode (gen (attempt + 1) plan) with
      | none => simp [plansOf]
      | some code =>
          cases hcond : (jsBlank (render (attempt + 1) (sceneFile sp plan)
              plan.scene_name).errors &&
              jsTruthy (render (attempt + 1) (sceneFile sp plan) plan.scene_name).videoPath) with
          | true => simp [hcond, plansOf]
          | false =>
              simp [hcond, plansOf_genCall, plansOf_wroteFile, plansOf_renderCall]

theorem genAux_consecutive (gen : ℕ → ScenePlan → Option CodeObj)
    (render : ℕ → String → String → RenderResult) (sp : String) (ma : ℕ) :
    ∀ (fuel attempt : ℕ) (plan : ScenePlan) (lastC : Option CodeObj) (lastR : RenderResult)
      (i : ℕ) (p p' : ScenePlan),
      (plansOf (genLoopAux gen render sp ma attempt plan lastC lastR fuel).2).get? i =
        some p →
      (plansOf (genLoopAux gen render sp ma attempt plan lastC lastR fuel).2).get? (i + 1) =
        some p' →
      ∃ code,
        usableCode (gen (attempt + i + 1) p) = some code ∧
        (jsBlank (render (attempt + i + 1) (sceneFile sp p) p.scene_name).errors &&
          jsTruthy (render (attempt + i + 1) (sceneFile sp p) p.scene_name).videoPath)
          = false ∧
        p' = failedAttemptPlan p code
          (render (attempt + i + 1) (sceneFile sp p) p.scene_name) := by
  intro fuel
  induction fuel with
  | zero =>
      intro attempt plan lastC lastR i p p' hp hp'
      simp [genLoopAux, plansOf] at hp
  | succ n ih =>
      intro attempt plan lastC lastR i p p' hp hp'
      cases huc : usableCode (gen (attempt + 1) plan) with
      | none =>
          rw [genLoopAux] at hp'
          rw [huc] at hp'
          simp [plansOf] at hp'
      | some code =>
          cases hcond : (jsBlank (render (attempt + 1) (sceneFile sp plan)
              plan.scene_name).errors &&
              jsTruthy (render (attempt + 1) (sceneFile sp plan)
                plan.scene_name).videoPath) with
          | true =>
              rw [genLoopAux] at hp'
              rw [huc] at hp'
              simp [hcond, plansOf] at hp'
          | false =>
              rw [genLoopAux] at hp hp'
              rw [huc] at hp hp'
              simp only [hcond, Bool.false_eq_true, if_false, plansOf_genCall,
                plansOf_wroteFile, plansOf_renderCall] at hp hp'
              cases i with
              | zero =>
                  rw [List.get?_cons_zero] at hp
                  rw [List.get?_cons_succ, List.get?_zero] at hp'
                  obtain rfl : plan = p := by injection hp
                  have hlen : 0 < (plansOf (genLoopAux gen render sp ma (attempt + 1)
                      (failedAttemptPlan plan code (render (attempt + 1) (sceneFile sp plan)
                        plan.scene_name))
                      (gen (attempt + 1) plan) (render (attempt + 1) (sceneFile sp plan)
                        plan.scene_name) n).2).length := by
                    by_contra hcon
                    rw [Nat.not_lt, Nat.le_zero, List.length_eq_zero] at hcon
                    rw [hcon] at hp'
                    simp at hp'
                  have hn : 0 < n := by
                    have := genAux_plans_len gen render sp ma n (attempt + 1)
                      (failedAttemptPlan plan code (render (attempt + 1) (sceneFile sp plan)
                        plan.scene_name))
                      (gen (attempt + 1) plan)
                      (render (attempt + 1) (sceneFile sp plan) plan.scene_name)
                    omega
                  have hhead := genAux_plans_head gen render sp ma n (attempt + 1)
                    (failedAttemptPlan plan code (render (attempt + 1) (sceneFile sp plan)
                      plan.scene_name))
                    (gen (attempt + 1) plan)
                    (render (attempt + 1) (sceneFile sp plan) plan.scene_name) hn
                  rw [hhead] at hp'
                  obtain rfl : failedAttemptPlan plan code (render (attempt + 1)
                      (sceneFile sp plan) plan.scene_name) = p' := by injection hp'
                  exact ⟨code, by simpa using huc, by simpa using hcond, rfl⟩
              | succ k =>
                  rw [List.get?_cons_succ] at hp hp'
                  have hrec := ih (attempt + 1)
                    (failedAttemptPlan plan code (render (attempt + 1) (sceneFile sp plan)
                      plan.scene_name))
                    (gen (attempt + 1) plan)
                    (render (attempt + 1) (sceneFile sp plan) plan.scene_name) k p p' hp hp'
                  have harith : attempt + 1 + k + 1 = attempt + (k + 1) + 1 := by omega
                  rw [harith] at hrec
                  exact hrec

theorem genAux_exitcode_irrelevant (gen : ℕ → ScenePlan → Option CodeObj)
    (render render' : ℕ → String → String → RenderResult) (sp : String) (ma : ℕ)
    (hagree : ∀ a f s, (render a f s).output = (render' a f s).output ∧
      (render a f s).errors = (render' a f s).errors ∧
      (render a f s).videoPath = (render' a f s).videoPath) :
    ∀ (fuel attempt : ℕ) (plan : ScenePlan) (lastC : Option CodeObj)
      (lastR lastR' : RenderResult),
      lastR.output = lastR'.output → lastR.errors = lastR'.errors →
      lastR.videoPath = lastR'.videoPath →
      genLoopAux gen render sp ma attempt plan lastC lastR fuel =
        genLoopAux gen render' sp ma attempt plan lastC lastR' fuel := by
  intro fuel
  induction fuel with
  | zero =>
      intro attempt plan lastC lastR lastR' ho he hv
      simp [genLoopAux, ho, he, hv]
  | succ n ih =>
      intro attempt plan lastC lastR lastR' ho he hv
      obtain ⟨ho1, he1, hv1⟩ := hagree (attempt + 1) (sceneFile sp plan) plan.scene_name
      simp only [genLoopAux]
      cases huc : usableCode (gen (attempt + 1) plan) with
      | none => rfl
      | some code =>
          have hcond' : (jsBlank (render' (attempt + 1) (sceneFile sp plan)
              plan.scene_name).errors &&
              jsTruthy (render' (attempt + 1) (sceneFile sp plan) plan.scene_name).videoPath)
              = (jsBlank (render (attempt + 1) (sceneFile sp plan) plan.scene_name).errors &&
              jsTruthy (render (attempt + 1) (sceneFile sp plan) plan.scene_name).videoPath) := by
            rw [he1, hv1]
          cases hcond : (jsBlank (render (attempt + 1) (sceneFile sp plan)
              plan.scene_name).errors &&
              jsTruthy (render (attempt + 1) (sceneFile sp plan) plan.scene_name).videoPath) with
          | true =>
              rw [hcond] at hcond'
              simp only [hcond, hcond', if_true, ho1, he1, hv1]
          | false =>
              rw [hcond] at hcond'
              have hplan : failedAttemptPlan plan code (render (attempt + 1)
                  (sceneFile sp plan) plan.scene_name) =
                  failedAttemptPlan plan code (render' (attempt + 1) (sceneFile sp plan)
                    plan.scene_name) := by
                simp [failedAttemptPlan, he1, hv1]
              have hrec := ih (attempt + 1)
                (failedAttemptPlan plan code (render (attempt + 1) (sceneFile sp plan)
                  plan.scene_name))
                (gen (attempt + 1) plan)
                (render (attempt + 1) (sceneFile sp plan) plan.scene_name)
                (render' (attempt + 1) (sceneFile sp plan) plan.scene_name) ho1 he1 hv1
              simp only [hcond, hcond', Bool.false_eq_true, if_false]
              rw [hrec, hplan]

theorem genAux_all_fail (gen : ℕ → ScenePlan → Option CodeObj)
    (render : ℕ → String → String → RenderResult) (sp : String) (ma : ℕ)
    (hgen : ∀ a p, (usableCode (gen a p)).isSome = true)
    (hfail : ∀ a f s,
      (jsBlank (render a f s).errors && jsTruthy (render a f s).videoPath) = false) :
    ∀ (fuel attempt : ℕ) (plan : ScenePlan) (lastC : Option CodeObj)
      (lastR : RenderResult),
      (genLoopAux gen render sp ma attempt plan lastC lastR (fuel + 1)).1.attempts = ma ∧
      (genLoopAux gen render sp ma attempt plan lastC lastR (fuel + 1)).1.output =
        (render (attempt + fuel + 1) (sceneFile sp plan) plan.scene_name).output ∧
      (genLoopAux gen render sp ma attempt plan lastC lastR (fuel + 1)).1.errors =
        (render (attempt + fuel + 1) (sceneFile sp plan) plan.scene_name).errors ∧
      (genLoopAux gen render sp ma attempt plan lastC lastR (fuel + 1)).1.videoPath =
        jsOrNull ((render (attempt + fuel + 1) (sceneFile sp plan)
          plan.scene_name).videoPath) := by
  intro fuel
  induction fuel with
  | zero =>
      intro attempt plan lastC lastR
      obtain ⟨code, huc⟩ := Option.isSome_iff_exists.mp (hgen (attempt + 1) plan)
      simp [genLoopAux, huc, hfail]
  | succ n ih =>
      intro attempt plan lastC lastR
      obtain ⟨code, huc⟩ := Option.isSome_iff_exists.mp (hgen (attempt + 1) plan)
      have hstep : (genLoopAux gen render sp ma attempt plan lastC lastR (n + 1 + 1)).1 =
          (genLoopAux gen render sp ma (attempt + 1)
            (failedAttemptPlan plan code (render (attempt + 1) (sceneFile sp plan)
              plan.scene_name))
            (gen (attempt + 1) plan)
            (render (attempt + 1) (sceneFile sp plan) plan.scene_name) (n + 1)).1 := by
        rw [genLoopAux]
        rw [huc]
        simp [hfail]
      rw [hstep]
      have hsn : sceneFile sp (failedAttemptPlan plan code (render (attempt + 1)
          (sceneFile sp plan) plan.scene_name)) = sceneFile sp plan := by
        simp [sceneFile, failedAttemptPlan]
      have hsn2 : (failedAttemptPlan plan code (render (attempt + 1) (sceneFile sp plan)
          plan.scene_name)).scene_name = plan.scene_name := by
        simp [failedAttemptPlan]
      have := ih (attempt + 1)
        (failedAttemptPlan plan code (render (attempt + 1) (sceneFile sp plan)
          plan.scene_name))
        (gen (attempt + 1) plan)
        (render (attempt + 1) (sceneFile sp plan) plan.scene_name)
      rw [hsn, hsn2] at this
      have harith : attempt + 1 + n + 1 = attempt + (n + 1) + 1 := by omega
      rw [harith] at this
      exact this

/-- **C1**: on every failed render attempt with attempts remaining, the
scene plan passed to the next generation call carries `previous_code`
equal to exactly the failed attempt's generated source, `manim_error`
equal to that attempt's stderr truncated to its first 2000 characters,
and the missing-video flag; and a run failing on attempt 1 and
succeeding on attempt 2 returns `attempts = 2` having passed exactly
those two plans to the generator. -/
theorem repairLoop_correction_payload (gen : ℕ → ScenePlan → Option CodeObj)
    (render : ℕ → String → String → RenderResult) (plan : ScenePlan) (ma : ℕ) :
    (∀ (i : ℕ) (p p' : ScenePlan),
      (plansOf (generateUntilNoManimErrors gen render plan ma).2).get? i = some p →
      (plansOf (generateUntilNoManimErrors gen render plan ma).2).get? (i + 1) = some p' →
      ∃ code,
        usableCode (gen (i + 1) p) = some code ∧
        (jsBlank (render (i + 1) (sceneFile scriptsDir p) p.scene_name).errors &&
          jsTruthy (render (i + 1) (sceneFile scriptsDir p) p.scene_name).videoPath)
          = false ∧
        p'.previous_code = some code ∧
        p'.manim_error = some (jsTake 2000
          (render (i + 1) (sceneFile scriptsDir p) p.scene_name).errors) ∧
        p'.manim_video_missing = some (!jsTruthy
          (render (i + 1) (sceneFile scriptsDir p) p.scene_name).videoPath) ∧
        p' = failedAttemptPlan p code
          (render (i + 1) (sceneFile scriptsDir p) p.scene_name)) ∧
    (∀ (k : ℕ) (code₁ code₂ : String),
      ma = k + 2 →
      usableCode (gen 1 plan) = some code₁ →
      (jsBlank (render 1 (sceneFile scriptsDir plan) plan.scene_name).errors &&
        jsTruthy (render 1 (sceneFile scriptsDir plan) plan.scene_name).videoPath)
        = false →
      usableCode (gen 2 (failedAttemptPlan plan code₁
        (render 1 (sceneFile scriptsDir plan) plan.scene_name))) = some code₂ →
      (jsBlank (render 2 (sceneFile scriptsDir (failedAttemptPlan plan code₁
            (render 1 (sceneFile scriptsDir plan) plan.scene_name)))
          (failedAttemptPlan plan code₁
            (render 1 (sceneFile scriptsDir plan) plan.scene_name)).scene_name).errors &&
        jsTruthy (render 2 (sceneFile scriptsDir (failedAttemptPlan plan code₁
            (render 1 (sceneFile scriptsDir plan) plan.scene_name)))
          (failedAttemptPlan plan code₁
            (render 1 (sceneFile scriptsDir plan) plan.scene_name)).scene_name).videoPath)
        = true →
      (generateUntilNoManimErrors gen render plan ma).1.attempts = 2 ∧
      plansOf (generateUntilNoManimErrors gen render plan ma).2 =
        [plan, failedAttemptPlan plan code₁
          (render 1 (sceneFile scriptsDir plan) plan.scene_name)]) := by
  constructor
  · intro i p p' hp hp'
    obtain ⟨code, h1, h2, h3⟩ := genAux_consecutive gen render scriptsDir ma ma 0 plan none
      initialRender i p p' hp hp'
    rw [Nat.zero_add] at h1 h2 h3
    exact ⟨code, h1, h2, by simp [h3, failedAttemptPlan], by simp [h3, failedAttemptPlan],
      by simp [h3, failedAttemptPlan], h3⟩
  · intro k code₁ code₂ hma huc1 hfail1 huc2 hsucc2
    subst hma
    have hstep1 : generateUntilNoManimErrors gen render plan (k + 2) =
        genLoopAux gen render scriptsDir (k + 2) 0 plan none initialRender (k + 1 + 1) := rfl
    rw [hstep1, genLoopAux]
    simp only [Nat.zero_add]
    rw [huc1]
    simp only [hfail1, Bool.false_eq_true, if_false]
    rw [genLoopAux]
    simp only [Nat.zero_add]
    rw [huc2]
    simp only [hsucc2, if_true]
    simp [plansOf]

/-- Witness for C1 at the spec's stub scenario: render fails on attempt
1 with stderr `"boom"` and no video, succeeds on attempt 2. -/
theorem repairLoop_correction_payload_witness :
    (generateUntilNoManimErrors genStubOk renderStubFailThenOk basePlan 3).1.attempts = 2 ∧
    plansOf (generateUntilNoManimErrors genStubOk renderStubFailThenOk basePlan 3).2 =
      [basePlan, failedAttemptPlan basePlan "codeA"
        (renderStubFailThenOk 1 (sceneFile scriptsDir basePlan) basePlan.scene_name)] ∧
    (failedAttemptPlan basePlan "codeA"
      (renderStubFailThenOk 1 (sceneFile scriptsDir basePlan)
        basePlan.scene_name)).previous_code = some "codeA" ∧
    (failedAttemptPlan basePlan "codeA"
      (renderStubFailThenOk 1 (sceneFile scriptsDir basePlan)
        basePlan.scene_name)).manim_error = some "boom" ∧
    (failedAttemptPlan basePlan "codeA"
      (renderStubFailThenOk 1 (sceneFile scriptsDir basePlan)
        basePlan.scene_name)).manim_video_missing = some true := by
  obtain ⟨hA, hB⟩ := repairLoop_correction_payload genStubOk renderStubFailThenOk basePlan 3
  obtain ⟨h1, h2⟩ := hB 1 "codeA" "codeB" rfl (by decide) (by decide) (by decide) (by decide)
  have hconsec := hA 0 basePlan (failedAttemptPlan basePlan "codeA"
    (renderStubFailThenOk 1 (sceneFile scriptsDir basePlan) basePlan.scene_name))
    (by rw [h2]; decide) (by rw [h2]; decide)
  exact ⟨h1, h2, by decide, by decide, by decide⟩

/-- **C2**: an attempt is declared successful exactly when stderr is
blank AND a (truthy) video path was located; on success the loop returns
at once with that attempt's code, output and video path, spending no
further attempts; and the decision ignores the subprocess exit code —
two render oracles agreeing on output, stderr, and video path (but not
on the exit-code-derived `success` flag) drive the loop identically. -/
theorem repairLoop_success_condition (gen : ℕ → ScenePlan → Option CodeObj)
    (render render' : ℕ → String → String → RenderResult) (sp : String) (ma : ℕ) :
    (∀ (fuel attempt : ℕ) (plan : ScenePlan) (lastC : Option CodeObj)
      (lastR : RenderResult) (code : String),
      usableCode (gen (attempt + 1) plan) = some code →
      ((jsBlank (render (attempt + 1) (sceneFile sp plan) plan.scene_name).errors &&
        jsTruthy (render (attempt + 1) (sceneFile sp plan) plan.scene_name).videoPath)
        = true →
        genLoopAux gen render sp ma attempt plan lastC lastR (fuel + 1) =
          ({ manimCode := gen (attempt + 1) plan,
             output := (render (attempt + 1) (sceneFile sp plan) plan.scene_name).output,
             errors := (render (attempt + 1) (sceneFile sp plan) plan.scene_name).errors,
             filePath := some (sceneFile sp plan),
             videoPath := (render (attempt + 1) (sceneFile sp plan)
               plan.scene_name).videoPath,
             attempts := attempt + 1 },
           [.genCall plan, .wroteFile (sceneFile sp plan) code,
            .renderCall (sceneFile sp plan) plan.scene_name])) ∧
      ((jsBlank (render (attempt + 1) (sceneFile sp plan) plan.scene_name).errors &&
        jsTruthy (render (attempt + 1) (sceneFile sp plan) plan.scene_name).videoPath)
        = false →
        genLoopAux gen render sp ma attempt plan lastC lastR (fuel + 1) =
          ((genLoopAux gen render sp ma (attempt + 1)
              (failedAttemptPlan plan code
                (render (attempt + 1) (sceneFile sp plan) plan.scene_name))
              (gen (attempt + 1) plan)
              (render (attempt + 1) (sceneFile sp plan) plan.scene_name) fuel).1,
           .genCall plan :: .wroteFile (sceneFile sp plan) code ::
             .renderCall (sceneFile sp plan) plan.scene_name ::
             (genLoopAux gen render sp ma (attempt + 1)
               (failedAttemptPlan plan code
                 (render (attempt + 1) (sceneFile sp plan) plan.scene_name))
               (gen (attempt + 1) plan)
               (render (attempt + 1) (sceneFile sp plan) plan.scene_name) fuel).2))) ∧
    ((∀ a f s, (render a f s).output = (render' a f s).output ∧
      (render a f s).errors = (render' a f s).errors ∧
      (render a f s).videoPath = (render' a f s).videoPath) →
      ∀ p : ScenePlan, generateUntilNoManimErrors gen render p ma =
        generateUntilNoManimErrors gen render' p ma) := by
  constructor
  · intro fuel attempt plan lastC lastR code huc
    constructor
    · intro hcond
      rw [genLoopAux, huc]
      simp [hcond]
    · intro hcond
      rw [genLoopAux, huc]
      simp [hcond]
  · intro hagree p
    exact genAux_exitcode_irrelevant gen render render' scriptsDir ma hagree ma 0 p none
      initialRender initialRender rfl rfl rfl

/-- Witness for C2: success on a blank-stderr attempt with a video, and
exit-code independence between two concrete stubs differing only in
their `success` flags. -/
theorem repairLoop_success_condition_witness :
    genLoopAux genStubOk renderStubFailThenOk scriptsDir 3 1 basePlan none initialRender 2 =
      ({ manimCode := genStubOk 2 basePlan, output := "out2", errors := "",
         filePath := some (sceneFile scriptsDir basePlan), videoPath := some "vid.mp4",
         attempts := 2 },
       [.genCall basePlan, .wroteFile (sceneFile scriptsDir basePlan) "codeB",
        .renderCall (sceneFile scriptsDir basePlan) basePlan.scene_name]) ∧
    generateUntilNoManimErrors genStubOk renderStubFailThenOk basePlan 3 =
      generateUntilNoManimErrors genStubOk renderStubFlipped basePlan 3 := by
  obtain ⟨hsucc, -⟩ := (repairLoop_success_condition genStubOk renderStubFailThenOk
    renderStubFlipped scriptsDir 3).1 1 1 basePlan none initialRender "codeB" (by decide)
  constructor
  · have := hsucc (by decide)
    rw [this]
    decide
  · exact (repairLoop_success_condition genStubOk renderStubFailThenOk renderStubFlipped
      scriptsDir 3).2
      (by
        intro a f s
        by_cases h : a = 1 <;> simp [renderStubFailThenOk, renderStubFlipped, h])
      basePlan

/-- **C5**: with every attempt failing, the loop runs `maxAttempts = 3`
attempts and returns the last attempt's partial result (output, stderr)
with `attempts` equal to the cap; and when the renderer never locates a
video the returned `videoPath` is `null`. -/
theorem repairLoop_exhaustion (gen : ℕ → ScenePlan → Option CodeObj)
    (render : ℕ → String → String → RenderResult) (plan : ScenePlan)
    (hgen : ∀ a p, (usableCode (gen a p)).isSome = true)
    (hfail : ∀ a f s,
      (jsBlank (render a f s).errors && jsTruthy (render a f s).videoPath) = false) :
    (generateUntilNoManimErrors gen render plan 3).1.attempts = 3 ∧
    (generateUntilNoManimErrors gen render plan 3).1.output =
      (render 3 (sceneFile scriptsDir plan) plan.scene_name).output ∧
    (generateUntilNoManimErrors gen render plan 3).1.errors =
      (render 3 (sceneFile scriptsDir plan) plan.scene_name).errors ∧
    (generateUntilNoManimErrors gen render plan 3).1.videoPath =
      jsOrNull ((render 3 (sceneFile scriptsDir plan) plan.scene_name).videoPath) ∧
    ((∀ a f s, (render a f s).videoPath = none) →
      (generateUntilNoManimErrors gen render plan 3).1.videoPath = none) := by
  have h := genAux_all_fail gen render scriptsDir 3 hgen hfail 2 0 plan none initialRender
  rw [Nat.zero_add] at h
  obtain ⟨ha, ho, he, hv⟩ := h
  refine ⟨ha, ho, he, hv, ?_⟩
  intro hnone
  have hres : (genLoopAux gen render scriptsDir 3 0 plan none initialRender
      (2 + 1)).1.videoPath = none := by
    rw [hv, hnone]
    rfl
  exact hres

/-- Witness for C5 with a never-succeeding render stub locating no
video: 3 attempts, last stderr, null video path. -/
theorem repairLoop_exhaustion_witness :
    (generateUntilNoManimErrors genStubOk renderStubNever basePlan 3).1.attempts = 3 ∧
    (generateUntilNoManimErrors genStubOk renderStubNever basePlan 3).1.errors = "erreee" ∧
    (generateUntilNoManimErrors genStubOk renderStubNever basePlan 3).1.videoPath = none := by
  obtain ⟨ha, ho, he, hv, hn⟩ := repairLoop_exhaustion genStubOk renderStubNever basePlan
    (by intro a p; by_cases h : a = 1 <;> simp [genStubOk, usableCode, h])
    (by intro a f s; simp [renderStubNever, jsTruthy])
  refine ⟨ha, ?_, hn (fun a f s => rfl)⟩
  rw [he]
  decide

/-- **C6**: when a generation pass yields no usable `manim_code`, the
loop returns immediately with the `"No manim_code"` error, the current
attempt count, and no video path; its only observable event is that one
generation call — no file write, no render invocation, no retry. -/
theorem repairLoop_no_code_abort (gen : ℕ → ScenePlan → Option CodeObj)
    (render : ℕ → String → String → RenderResult) (sp : String) (ma : ℕ)
    (fuel attempt : ℕ) (plan : ScenePlan) (lastC : Option CodeObj) (lastR : RenderResult)
    (h : usableCode (gen (attempt + 1) plan) = none) :
    genLoopAux gen render sp ma attempt plan lastC lastR (fuel + 1) =
      ({ manimCode := gen (attempt + 1) plan, output := "", errors := "No manim_code",
         filePath := none, videoPath := none, attempts := attempt + 1 },
       [.genCall plan]) := by
  rw [genLoopAux, h]

/-- Witness for C6: a generator whose object lacks `manim_code` stops
the loop on attempt 1 with only a generation-call event. -/
theorem repairLoop_no_code_abort_witness :
    generateUntilNoManimErrors genStubNoCode renderStubFailThenOk basePlan 3 =
      ({ manimCode := some ⟨some "Scene", none⟩, output := "", errors := "No manim_code",
         filePath := none, videoPath := none, attempts := 1 },
       [.genCall basePlan]) := by
  have h := repairLoop_no_code_abort genStubNoCode renderStubFailThenOk scriptsDir 3 2 0
    basePlan none initialRender rfl
  exact h

/- =====================  RenderInvoker lemmas  ===================== -/

theorem pickNewest_foldl_spec (l : List MFile) :
    ∀ (b : Option String) (m : ℚ),
      (∀ g ∈ l, g.mtime ≤ (l.foldl
        (fun acc f => if f.mtime > acc.2 then (some (pathStr f), f.mtime) else acc)
        (b, m)).2) ∧
      m ≤ (l.foldl
        (fun acc f => if f.mtime > acc.2 then (some (pathStr f), f.mtime) else acc)
        (b, m)).2 ∧
      ((l.foldl
        (fun acc f => if f.mtime > acc.2 then (some (pathStr f), f.mtime) else acc)
        (b, m)) = (b, m) ∨
        ∃ f ∈ l, (l.foldl
          (fun acc f => if f.mtime > acc.2 then (some (pathStr f), f.mtime) else acc)
          (b, m)) = (some (pathStr f), f.mtime)) := by
  induction l with
  | nil => intro b m; exact ⟨by simp, le_refl m, Or.inl rfl⟩
  | cons f rest ih =>
      intro b m
      simp only [List.foldl_cons]
      by_cases hf : f.mtime > m
      · rw [if_pos hf]
        obtain ⟨ha, hb, hc⟩ := ih (some (pathStr f)) f.mtime
        refine ⟨?_, le_trans (le_of_lt hf) hb, ?_⟩
        · intro g hg
          rcases List.mem_cons.mp hg with hg | hg
          · rw [hg]; exact hb
          · exact ha g hg
        · rcases hc with hc | ⟨g, hg, hc⟩
          · exact Or.inr ⟨f, List.mem_cons_self f rest, hc⟩
          · exact Or.inr ⟨g, List.mem_cons_of_mem f hg, hc⟩
      · rw [if_neg hf]
        obtain ⟨ha, hb, hc⟩ := ih b m
        refine ⟨?_, hb, ?_⟩
        · intro g hg
          rcases List.mem_cons.mp hg with hg | hg
          · rw [hg]; exact le_trans (le_of_not_lt hf) hb
          · exact ha g hg
        · rcases hc with hc | ⟨g, hg, hc⟩
          · exact Or.inl hc
          · exact Or.inr ⟨g, List.mem_cons_of_mem f hg, hc⟩

theorem pickNewestInit0_spec (l : List MFile) (hpos : ∀ f ∈ l, 0 < f.mtime)
    (hne : l ≠ []) :
    ∃ f ∈ l, pickNewestInit0 l = some (pathStr f) ∧ ∀ g ∈ l, g.mtime ≤ f.mtime := by
  obtain ⟨ha, -, hc⟩ := pickNewest_foldl_spec l none 0
  rcases hc with hc | ⟨f, hf, hc⟩
  · exfalso
    obtain ⟨g, hg⟩ := List.exists_mem_of_ne_nil l hne
    have h1 := ha g hg
    rw [hc] at h1
    exact absurd (lt_of_lt_of_le (hpos g hg) h1) (lt_irrefl 0)
  · refine ⟨f, hf, ?_, ?_⟩
    · unfold pickNewestInit0
      rw [hc]
    · intro g hg
      have := ha g hg
      rw [hc] at this
      exact this

theorem firstMax_eq_none : ∀ (l : List MFile), firstMax l = none → l = [] := by
  intro l h
  cases l with
  | nil => rfl
  | cons x t =>
      exfalso
      cases ht : firstMax t with
      | none =>
          simp only [firstMax, ht] at h
          exact Option.noConfusion h
      | some y =>
          simp only [firstMax, ht] at h
          by_cases hy : y.mtime > x.mtime
          · rw [if_pos hy] at h; exact Option.noConfusion h
          · rw [if_neg hy] at h; exact Option.noConfusion h

theorem firstMax_spec : ∀ (l : List MFile) (f : MFile), firstMax l = some f →
    f ∈ l ∧ ∀ g ∈ l, g.mtime ≤ f.mtime := by
  intro l
  induction l with
  | nil => intro f h; simp [firstMax] at h
  | cons a rest ih =>
      intro f h
      cases hr : firstMax rest with
      | none =>
          simp only [firstMax, hr] at h
          obtain rfl : a = f := by injection h
          have hrest : rest = [] := firstMax_eq_none rest hr
          subst hrest
          exact ⟨List.mem_singleton_self a, by simp⟩
      | some g =>
          simp only [firstMax, hr] at h
          obtain ⟨hg1, hg2⟩ := ih g hr
          by_cases hgt : g.mtime > a.mtime
          · rw [if_pos hgt] at h
            obtain rfl : g = f := by injection h
            refine ⟨List.mem_cons_of_mem a hg1, ?_⟩
            intro x hx
            rcases List.mem_cons.mp hx with hx | hx
            · rw [hx]; exact le_of_lt hgt
            · exact hg2 x hx
          · rw [if_neg hgt] at h
            obtain rfl : a = f := by injection h
            refine ⟨List.mem_cons_self a rest, ?_⟩
            intro x hx
            rcases List.mem_cons.mp hx with hx | hx
            · rw [hx]
            · exact le_trans (hg2 x hx) (le_of_not_lt hgt)

theorem findLatestMp4_spec (fs : FS) (mediaRoot sceneName : String)
    (hpos : ∀ f ∈ findCandidates fs mediaRoot sceneName, 0 < f.mtime) (q : String)
    (hq : findLatestMp4 fs mediaRoot sceneName = some q) :
    ∃ f ∈ findCandidates fs mediaRoot sceneName, q = pathStr f ∧
      ∀ g ∈ findCandidates fs mediaRoot sceneName, g.mtime ≤ f.mtime := by
  unfold findLatestMp4 at hq
  by_cases hd : isDirPath fs mediaRoot
  · rw [hd] at hq
    simp only [Bool.not_true, Bool.false_eq_true, if_false] at hq
    by_cases hne : (findCandidates fs mediaRoot sceneName).isEmpty
    · rw [if_pos hne] at hq
      exact absurd hq (by simp)
    · rw [if_neg hne] at hq
      obtain ⟨f, hf, hpick, hmax⟩ := pickNewestInit0_spec
        (findCandidates fs mediaRoot sceneName) hpos
        (by intro hcon; rw [hcon] at hne; simp at hne)
      rw [hpick] at hq
      obtain rfl : pathStr f = q := by injection hq
      exact ⟨f, hf, rfl, hmax⟩
  · rw [Bool.not_eq_true] at hd
    rw [hd] at hq
    simp at hq

/-- **C3**: `runManim`'s video location is a strict three-tier fallback:
a stdout-detected "ready" path that exists on disk (tier 1) wins over
anything tiers 2 and 3 would find; the structured `findLatestMp4` search
(tier 2) runs only when tier 1 produced no existing file and wins over
tier 3; the whole-workspace walk (tier 3) runs only when both earlier
tiers produced nothing; and within tiers 2 and 3 a candidate with the
latest modification time is chosen (for tier 2 under the premise that
all candidate mtimes are positive, matching the `newestMtime = 0`
sentinel of the source). -/
theorem runManim_tiered_search (fs : FS) (sp sn out : String) (fp : String)
    (exitCode : Int) (errors : String) :
    (runManim fs sp fp sn exitCode out errors).videoPath = locateVideo fs sp sn out ∧
    (∀ p, tier1Result fs out = some p → locateVideo fs sp sn out = some p) ∧
    (tier1Result fs out = none →
      ∀ q, findLatestMp4 fs (sp ++ "/media/videos") sn = some q →
        locateVideo fs sp sn out = some q) ∧
    (tier1Result fs out = none → findLatestMp4 fs (sp ++ "/media/videos") sn = none →
      locateVideo fs sp sn out = (firstMax (tier3Search fs sp)).map pathStr) ∧
    ((∀ f ∈ findCandidates fs (sp ++ "/media/videos") sn, 0 < f.mtime) →
      ∀ q, findLatestMp4 fs (sp ++ "/media/videos") sn = some q →
        ∃ f ∈ findCandidates fs (sp ++ "/media/videos") sn, q = pathStr f ∧
          ∀ g ∈ findCandidates fs (sp ++ "/media/videos") sn, g.mtime ≤ f.mtime) ∧
    (∀ f, firstMax (tier3Search fs sp) = some f →
      f ∈ tier3Search fs sp ∧ ∀ g ∈ tier3Search fs sp, g.mtime ≤ f.mtime) := by
  refine ⟨rfl, ?_, ?_, ?_, ?_, ?_⟩
  · intro p hp
    simp [locateVideo, hp]
  · intro h1 q hq
    simp [locateVideo, h1, hq]
  · intro h1 h2
    simp [locateVideo, h1, h2]
  · intro hpos q hq
    exact findLatestMp4_spec fs (sp ++ "/media/videos") sn hpos q hq
  · intro f hf
    exact firstMax_spec (tier3Search fs sp) f hf

/-- Witness for C3 on a concrete filesystem: the stdout-detected
existing path wins although a much newer `.mp4` exists elsewhere; with
uninformative stdout, tier 2 returns the structured-tree artifact; and
on the structured tree the chosen candidate has maximal mtime. -/
theorem runManim_tiered_search_witness :
    locateVideo fsStub "scripts" "Scene" outStub = some "scripts/x.mp4" ∧
    locateVideo fsStub "scripts" "Scene" "no info" =
      some "scripts/media/videos/Scene/480p15/Scene.mp4" ∧
    (∃ f ∈ findCandidates fsStub "scripts/media/videos" "Scene",
      "scripts/media/videos/Scene/480p15/Scene.mp4" = pathStr f ∧
      ∀ g ∈ findCandidates fsStub "scripts/media/videos" "Scene", g.mtime ≤ f.mtime) := by
  obtain ⟨-, h1, h2, -, h4, -⟩ :=
    runManim_tiered_search fsStub "scripts" "Scene" outStub "f.py" 0 ""
  refine ⟨h1 "scripts/x.mp4" (by decide), ?_, ?_⟩
  · obtain ⟨-, -, hb2, -, -, -⟩ :=
      runManim_tiered_search fsStub "scripts" "Scene" "no info" "f.py" 0 ""
    exact hb2 (by decide) "scripts/media/videos/Scene/480p15/Scene.mp4" (by decide)
  · exact h4 (by decide) "scripts/media/videos/Scene/480p15/Scene.mp4" (by decide)

/- =====================  Audio lemmas  ===================== -/

theorem mkRat_half : (mkRat 1 2 : ℚ) = 1 / 2 := by
  rw [Rat.mkRat_eq_div]
  norm_num

theorem mkRat_eps : (mkRat 5 100 : ℚ) = 1 / 20 := by
  rw [Rat.mkRat_eq_div]
  norm_num

theorem le_qmax_left (a b : ℚ) : a ≤ qmax a b := by
  unfold qmax
  split
  · assumption
  · exact le_refl a

theorem qmax_eq_right {a b : ℚ} (h : a ≤ b) : qmax a b = b := if_pos h

theorem jsOrQ_of_ne {x : ℚ} (d : ℚ) (h : x ≠ 0) : jsOrQ x d = x := if_neg h

theorem qmin_eq_right {a b : ℚ} (h : b ≤ a) : qmin a b = b := by
  unfold qmin
  split
  · exact le_antisymm (by assumption) h
  · rfl

theorem rat_floor_eq_int_floor (q : ℚ) : Rat.floor q = ⌊q⌋ := rfl

theorem round2_le (q : ℚ) : round2 q ≤ q + 1 / 200 := by
  unfold round2
  rw [Rat.divInt_eq_div, rat_floor_eq_int_floor, mkRat_half]
  have h1 : ((⌊q * 100 + 1 / 2⌋ : ℤ) : ℚ) ≤ q * 100 + 1 / 2 := Int.floor_le _
  have h2 : ((⌊q * 100 + 1 / 2⌋ : ℤ) : ℚ) / 100 ≤ (q * 100 + 1 / 2) / 100 := by
    exact div_le_div_of_nonneg_right h1 (by norm_num) |>.trans_eq rfl
  calc ((⌊q * 100 + 1 / 2⌋ : ℤ) : ℚ) / 100 ≤ (q * 100 + 1 / 2) / 100 := h2
    _ = q + 1 / 200 := by ring

theorem createSilentAudioDur_of_ge_half (x : ℚ) (hx : mkRat 1 2 ≤ x) :
    createSilentAudioDur x = round2 x := by
  have hx0 : x ≠ 0 := by
    rw [mkRat_half] at hx
    intro hcon
    rw [hcon] at hx
    norm_num at hx
  unfold createSilentAudioDur
  rw [jsOrQ_of_ne 1 hx0, qmax_eq_right hx]

theorem padOrTrim_some (dur : String → ℚ) (exists? : String → Bool) (v a : String) :
    padOrTrimAudioToMatch dur exists? v (some a) =
      if a = "" || !exists? a then
        .silence (createSilentAudioDur (jsOrQ (dur v) 1))
      else if dur a > dur v + mkRat 5 100 then .trimmed a (round2 (dur v))
      else if dur a < dur v - mkRat 5 100 then
        .padded a (createSilentAudioDur (qmax (mkRat 1 2) (dur v - dur a)))
      else .original a := rfl

/-- **C8** (amended): `padOrTrimAudioToMatch` follows the spec's policy
up to the source's numeric quirks: a missing/absent audio input yields
pure silence of duration `toFixed(2)`-rounded `max(0.5, videoDur)` —
except that an unprobeable (zero-duration) video yields 1 s of silence,
via `videoDur || 1`; an audio longer than the video by more than 0.05 s
is trimmed to the video duration rounded to hundredths (not exactly the
video duration); an audio shorter by more than 0.05 s is kept unmodified
at the start and followed by appended silence of duration
`max(deficit, 0.5)` rounded to hundredths; within tolerance the original
path is returned unchanged and no file is created. -/
theorem padOrTrim_policy (dur : String → ℚ) (exists? : String → Bool) (v : String)
    (ap : Option String) :
    (ap = none →
      padOrTrimAudioToMatch dur exists? v ap =
        .silence (createSilentAudioDur (jsOrQ (dur v) 1))) ∧
    (∀ a, ap = some a → (a = "" ∨ exists? a = false) →
      padOrTrimAudioToMatch dur exists? v ap =
        .silence (createSilentAudioDur (jsOrQ (dur v) 1))) ∧
    (∀ a, ap = some a → a ≠ "" → exists? a = true →
      (dur v + mkRat 5 100 < dur a →
        padOrTrimAudioToMatch dur exists? v ap = .trimmed a (round2 (dur v)) ∧
        prepDuration dur (padOrTrimAudioToMatch dur exists? v ap) = round2 (dur v) ∧
        round2 (dur v) ≤ dur v + 1 / 200) ∧
      (dur a < dur v - mkRat 5 100 →
        padOrTrimAudioToMatch dur exists? v ap =
          .padded a (round2 (qmax (mkRat 1 2) (dur v - dur a))) ∧
        prepDuration dur (padOrTrimAudioToMatch dur exists? v ap) =
          dur a + round2 (qmax (mkRat 1 2) (dur v - dur a))) ∧
      (¬(dur v + mkRat 5 100 < dur a) → ¬(dur a < dur v - mkRat 5 100) →
        padOrTrimAudioToMatch dur exists? v ap = .original a)) := by
  refine ⟨?_, ?_, ?_⟩
  · rintro rfl
    rfl
  · rintro a rfl hcond
    have hb : (a = "" || !exists? a) = true := by
      rcases hcond with h | h
      · simp [h]
      · simp [h]
    simp [padOrTrim_some, hb]
  · rintro a rfl ha he
    have hb : (a = "" || !exists? a) = false := by simp [ha, he]
    constructor
    · intro hgt
      have hres : padOrTrimAudioToMatch dur exists? v (some a) =
          .trimmed a (round2 (dur v)) := by
        rw [padOrTrim_some, hb]
        simp only [Bool.false_eq_true, if_false]
        rw [if_pos hgt]
      refine ⟨hres, ?_, round2_le (dur v)⟩
      rw [hres]
      have hle : round2 (dur v) ≤ dur a := by
        have h1 := round2_le (dur v)
        rw [mkRat_eps] at hgt
        linarith
      exact qmin_eq_right hle
    constructor
    · intro hlt
      have harg : mkRat 1 2 ≤ qmax (mkRat 1 2) (dur v - dur a) := le_qmax_left _ _
      have hres : padOrTrimAudioToMatch dur exists? v (some a) =
          .padded a (createSilentAudioDur (qmax (mkRat 1 2) (dur v - dur a))) := by
        rw [padOrTrim_some, hb]
        simp only [Bool.false_eq_true, if_false]
        rw [if_neg (by rw [mkRat_eps] at hlt ⊢; linarith), if_pos hlt]
      rw [hres, createSilentAudioDur_of_ge_half _ harg]
      exact ⟨rfl, rfl⟩
    · intro hno hno2
      rw [padOrTrim_some, hb]
      simp only [Bool.false_eq_true, if_false]
      rw [if_neg hno, if_neg hno2]

set_option maxRecDepth 8000 in
/-- Counterexample to C8 as stated, at two concrete inputs: (a) with no
audio path and an unprobeable video (probed duration 0), the created
silence lasts 1 s, not the claimed `max(videoDur, 0.5) = 0.5` s; (b)
with a 10.456 s video and a 12 s audio, the trim duration passed to the
transcoder is `toFixed(2)`-rounded 10.46 s, so the new file's duration
differs from "exactly the video's duration". -/
theorem padOrTrim_counterexample :
    padOrTrimAudioToMatch audioDurStub audioExistsStub "video.mp4" none = .silence 1 ∧
    (1 : ℚ) ≠ qmax (audioDurStub "video.mp4") (mkRat 1 2) ∧
    padOrTrimAudioToMatch audioDurStub audioExistsStub "video2.mp4" (some "audio.mp3") =
      .trimmed "audio.mp3" (mkRat 1046 100) ∧
    prepDuration audioDurStub (padOrTrimAudioToMatch audioDurStub audioExistsStub
      "video2.mp4" (some "audio.mp3")) ≠ audioDurStub "video2.mp4" := by
  refine ⟨?_, ?_, ?_, ?_⟩ <;> with_unfolding_all decide

set_option maxRecDepth 8000 in
/-- Witness for C8's amended theorem at concrete inputs: the trim branch
on a 10.456 s video with 12 s audio, and the silence branch with no
audio. -/
theorem padOrTrim_policy_witness :
    padOrTrimAudioToMatch audioDurStub audioExistsStub "video2.mp4" (some "audio.mp3") =
      .trimmed "audio.mp3" (round2 (audioDurStub "video2.mp4")) ∧
    prepDuration audioDurStub (padOrTrimAudioToMatch audioDurStub audioExistsStub
      "video2.mp4" (some "audio.mp3")) = round2 (audioDurStub "video2.mp4") ∧
    padOrTrimAudioToMatch audioDurStub audioExistsStub "v.mp4" none =
      .silence (createSilentAudioDur (jsOrQ (audioDurStub "v.mp4") 1)) := by
  obtain ⟨-, -, hmain⟩ :=
    padOrTrim_policy audioDurStub audioExistsStub "video2.mp4" (some "audio.mp3")
  obtain ⟨htrim, -, -⟩ := hmain "audio.mp3" rfl (by decide) (by decide)
  obtain ⟨h1, h2, -⟩ := htrim (by with_unfolding_all decide)
  obtain ⟨hsil, -, -⟩ :=
    padOrTrim_policy audioDurStub audioExistsStub "v.mp4" none
  exact ⟨h1, h2, hsil rfl⟩

/-- **C9** (amended): `mergeVideoAndAudio` requires only the *video*
input to exist: a falsy or non-existent video path fails immediately
with the missing-input error and no subprocess is spawned; a missing or
non-existent *audio* path does not fail — silent audio is synthesized by
`ensureAudioForMerge`/`padOrTrimAudioToMatch` and the merge proceeds to
the transcoder. -/
theorem merge_requires_video_only (dur : String → ℚ) (exists? : String → Bool)
    (vp ap : Option String) :
    (vp = none → mergeVideoAndAudio dur exists? vp ap = .missingVideoError none) ∧
    (∀ v, vp = some v → (v = "" ∨ exists? v = false) →
      mergeVideoAndAudio dur exists? vp ap = .missingVideoError (some v)) ∧
    (∀ v, vp = some v → v ≠ "" → exists? v = true →
      mergeVideoAndAudio dur exists? vp ap =
        .spawned (padOrTrimAudioToMatch dur exists? v ap) ∧
      isMissingInputFailure (mergeVideoAndAudio dur exists? vp ap) = false) := by
  refine ⟨?_, ?_, ?_⟩
  · rintro rfl
    rfl
  · rintro v rfl hcond
    have hb : (v = "" || !exists? v) = true := by
      rcases hcond with h | h
      · simp [h]
      · simp [h]
    simp [mergeVideoAndAudio, hb]
  · rintro v rfl hv he
    have hb : (v = "" || !exists? v) = false := by simp [hv, he]
    have hres : mergeVideoAndAudio dur exists? (some v) ap =
        .spawned (padOrTrimAudioToMatch dur exists? v ap) := by
      simp [mergeVideoAndAudio, hb]
    exact ⟨hres, by rw [hres]; rfl⟩

set_option maxRecDepth 8000 in
/-- Counterexample to C9 as stated: with an existing video and *no*
audio path at all, the merge does not fail with a missing-input error —
it synthesizes 10 s of silence and proceeds to spawn the transcoder. -/
theorem merge_missing_audio_counterexample :
    audioExistsStub "v.mp4" = true ∧
    mergeVideoAndAudio audioDurStub audioExistsStub (some "v.mp4") none =
      .spawned (.silence 10) ∧
    isMissingInputFailure
      (mergeVideoAndAudio audioDurStub audioExistsStub (some "v.mp4") none) = false := by
  refine ⟨?_, ?_, ?_⟩ <;> with_unfolding_all decide

/-- Witness for C9's amended theorem: a non-existent video path fails
immediately; an existing video with missing audio proceeds. -/
theorem merge_requires_video_only_witness :
    mergeVideoAndAudio audioDurStub audioExistsStub (some "ghost.mp4") none =
      .missingVideoError (some "ghost.mp4") ∧
    mergeVideoAndAudio audioDurStub audioExistsStub none none =
      .missingVideoError none ∧
    mergeVideoAndAudio audioDurStub audioExistsStub (some "v.mp4") none =
      .spawned (padOrTrimAudioToMatch audioDurStub audioExistsStub "v.mp4" none) := by
  obtain ⟨h1, h2, h3⟩ :=
    merge_requires_video_only audioDurStub audioExistsStub (some "ghost.mp4") none
  obtain ⟨hb1, -, -⟩ :=
    merge_requires_video_only audioDurStub audioExistsStub none none
  obtain ⟨-, -, hb3⟩ :=
    merge_requires_video_only audioDurStub audioExistsStub (some "v.mp4") none
  exact ⟨h2 "ghost.mp4" rfl (Or.inr (by decide)), hb1 rfl,
    (hb3 "v.mp4" rfl (by decide) (by decide)).1⟩

/-- **C10** (amended): `getMediaDuration` never rejects — every outcome
of the prober resolves to a number: a spawn failure, a non-zero exit, or
non-numeric stdout all resolve 0, so unprobeable or absent media is
treated as zero-duration rather than an error; a zero exit with numeric
stdout resolves exactly the printed number, which is non-negative
whenever the prober's printed duration is (the code does not clamp: a
negative printed value would be passed through). -/
theorem getMediaDuration_total (p : ProbeOutcome) :
    (p = .spawnError → getMediaDuration p = 0) ∧
    (∀ c o, p = .closed c o → c ≠ 0 → getMediaDuration p = 0) ∧
    (∀ c, p = .closed c none → getMediaDuration p = 0) ∧
    (∀ v, p = .closed 0 (some v) → getMediaDuration p = v) ∧
    ((∀ v, p = .closed 0 (some v) → 0 ≤ v) → 0 ≤ getMediaDuration p) := by
  refine ⟨?_, ?_, ?_, ?_, ?_⟩
  · rintro rfl
    rfl
  · rintro c o rfl hc
    simp [getMediaDuration, hc]
  · rintro c rfl
    by_cases hc : c = 0 <;> simp [getMediaDuration, hc]
  · rintro v rfl
    rfl
  · intro hpos
    cases p with
    | spawnError => simp [getMediaDuration]
    | closed c o =>
        by_cases hc : c = 0
        · subst hc
          cases o with
          | none => simp [getMediaDuration]
          | some v => simpa [getMediaDuration] using hpos v rfl
        · simp [getMediaDuration, hc]

/-- Counterexample to C10 as stated: a zero-exit probe whose stdout
parses to `-2` resolves `-2`, a negative value — the function is total
and never rejects, but it is not non-negative on every outcome. -/
theorem getMediaDuration_counterexample :
    getMediaDuration (.closed 0 (some (-2))) = -2 ∧
    ¬ (0 ≤ getMediaDuration (.closed 0 (some (-2)))) := by
  refine ⟨rfl, ?_⟩
  intro h
  rw [show getMediaDuration (.closed 0 (some (-2))) = -2 from rfl] at h
  norm_num at h

/-- Witness for C10's amended theorem at concrete probes. -/
theorem getMediaDuration_total_witness :
    getMediaDuration .spawnError = 0 ∧
    getMediaDuration (.closed 1 (some 5)) = 0 ∧
    getMediaDuration (.closed 0 none) = 0 ∧
    getMediaDuration (.closed 0 (some (mkRat 7 2))) = mkRat 7 2 ∧
    0 ≤ getMediaDuration (.closed 0 (some (mkRat 7 2))) := by
  obtain ⟨h1, -, -, -, -⟩ := getMediaDuration_total .spawnError
  obtain ⟨-, h2, -, -, -⟩ := getMediaDuration_total (.closed 1 (some 5))
  obtain ⟨-, -, h3, -, -⟩ := getMediaDuration_total (.closed 0 none)
  obtain ⟨-, -, -, h4, h5⟩ := getMediaDuration_total (.closed 0 (some (mkRat 7 2)))
  refine ⟨h1 rfl, h2 1 (some 5) rfl (by decide), h3 0 rfl, h4 (mkRat 7 2) rfl, ?_⟩
  apply h5
  intro v hv
  obtain rfl : mkRat 7 2 = v := by
    have := (ProbeOutcome.closed.injEq 0 (some (mkRat 7 2)) 0 (some v)).mp hv
    exact Option.some.injEq _ _ ▸ this.2
  rw [Rat.mkRat_eq_div]
  norm_num
